import Mathlib

/-!
Verification of the nanochat-platform frontend against its specification.

The definitions below are shallow embeddings of the JavaScript/React source:
pure fragments become Lean functions, component state becomes explicit
record-passing, and the streamed protocols are modelled as lists of already
parsed server-sent-event payloads.
-/

/-- A chat message as used by the chat page and the inference page:
a plain `{role, content}` record. -/
structure ChatMessage where
  role : String
  content : String
deriving Repr, DecidableEq, Inhabited

/-- The parsed form of one `data:` line of the chat-completion stream, as the
chat page's reader loop distinguishes the cases (ChatPage `sendMessage`):
the `[DONE]` sentinel, a line whose JSON parse fails, a parsed object carrying
an `error` field, or a parsed object whose `choices[0].delta.content` is the
given string (absent content is the empty string, which the code's truthiness
check skips). -/
inductive ChatData where
  | doneSentinel
  | parseFail
  | errField (msg : String)
  | delta (content : String)
deriving Repr, DecidableEq

/-- `updated[updated.length - 1].content += content` from ChatPage
`sendMessage`: append `c` to the content of the last message of the list. -/
def updateLast : List ChatMessage → String → List ChatMessage
  | [], _ => []
  | [m], c => [⟨m.role, m.content ++ c⟩]
  | m :: m2 :: ms, c => m :: updateLast (m2 :: ms) c

/-- The inner `for (const line of lines)` loop of ChatPage `sendMessage`
over the `data:` payloads of one network chunk: `[DONE]` and an `error`
field break out of the loop, a JSON parse failure is ignored, and a truthy
delta content is appended to the last (assistant placeholder) message. -/
def chatProcessChunk : List ChatMessage → List ChatData → List ChatMessage
  | msgs, [] => msgs
  | msgs, ChatData.doneSentinel :: _ => msgs
  | msgs, ChatData.errField _ :: _ => msgs
  | msgs, ChatData.parseFail :: rest => chatProcessChunk msgs rest
  | msgs, ChatData.delta c :: rest =>
      chatProcessChunk (if c = "" then msgs else updateLast msgs c) rest

/-- The outer `while (true)` reader loop of ChatPage `sendMessage`: each
network read yields one chunk of parsed `data:` payloads, processed in
arrival order. -/
def chatProcessStream (msgs : List ChatMessage) (chunks : List (List ChatData)) :
    List ChatMessage :=
  chunks.foldl chatProcessChunk msgs

/-- `const newMessages = [...messages, userMessage]` with
`{ role: 'user', content: input.trim() }` from ChatPage `sendMessage`;
this list is both rendered and sent as the request body's `messages`. -/
def sendMessageRequest (messages : List ChatMessage) (input : String) :
    List ChatMessage :=
  messages ++ [⟨"user", input.trim⟩]

/-- The display list right after send: the request list plus the empty
assistant placeholder (`setMessages([...newMessages, assistantMessage])`). -/
def afterSendDisplay (newMessages : List ChatMessage) : List ChatMessage :=
  newMessages ++ [⟨"assistant", ""⟩]

/-- Concatenation of delta texts in arrival order: the reference value the
reassembled assistant content should equal. -/
def joinDeltas : List String → String
  | [] => ""
  | d :: t => d ++ joinDeltas t

/- Lemmas about the reassembly loop. -/

theorem updateLast_append (ms : List ChatMessage) (m : ChatMessage) (c : String) :
    updateLast (ms ++ [m]) c = ms ++ [⟨m.role, m.content ++ c⟩] := by
  induction ms with
  | nil => rfl
  | cons a t ih =>
    cases t with
    | nil => simp [updateLast]
    | cons b t2 => simpa [updateLast] using ih

theorem chatProcessChunk_single_delta (msgs : List ChatMessage) (d : String) :
    chatProcessChunk msgs [ChatData.delta d] =
      if d = "" then msgs else updateLast msgs d := rfl

theorem chatProcessStream_delta_chunks (ms : List ChatMessage) (m : ChatMessage)
    (ds : List String) :
    chatProcessStream (ms ++ [m]) (ds.map (fun d => [ChatData.delta d])) =
      ms ++ [⟨m.role, m.content ++ joinDeltas ds⟩] := by
  induction ds generalizing m with
  | nil => simp [chatProcessStream, joinDeltas]
  | cons d t ih =>
    simp only [List.map_cons, chatProcessStream, List.foldl_cons] at ih ⊢
    rw [chatProcessChunk_single_delta]
    by_cases hd : d = ""
    · subst hd
      rw [if_pos rfl, ih m]
      simp [joinDeltas, String.empty_append]
    · rw [if_neg hd, updateLast_append, ih ⟨m.role, m.content ++ d⟩]
      simp [joinDeltas, String.append_assoc]

/-- Claim C1: every sequence of streamed delta chunks is reassembled
client-side by concatenation in arrival order into the single assistant
message (in particular, deltas "Hel", "lo", " world" followed by the
end-of-stream sentinel yield "Hello world"), and the message list sent with
the next user turn contains this reconstructed assistant message verbatim. -/
theorem chat_stream_reassembly_and_next_turn
    (msgs : List ChatMessage) (input : String) (ds : List String)
    (nextInput : String) :
    chatProcessStream (afterSendDisplay (sendMessageRequest msgs input))
        (ds.map (fun d => [ChatData.delta d]) ++ [[ChatData.doneSentinel]]) =
      sendMessageRequest msgs input ++ [⟨"assistant", joinDeltas ds⟩] ∧
    ChatMessage.mk "assistant" (joinDeltas ds) ∈
      sendMessageRequest
        (sendMessageRequest msgs input ++ [⟨"assistant", joinDeltas ds⟩])
        nextInput ∧
    chatProcessStream (afterSendDisplay (sendMessageRequest msgs input))
        [[ChatData.delta "Hel"], [ChatData.delta "lo"],
         [ChatData.delta " world"], [ChatData.doneSentinel]] =
      sendMessageRequest msgs input ++ [⟨"assistant", "Hello world"⟩] := by
  refine ⟨?_, ?_, ?_⟩
  · unfold chatProcessStream afterSendDisplay
    rw [List.foldl_append]
    have h := chatProcessStream_delta_chunks (sendMessageRequest msgs input)
      ⟨"assistant", ""⟩ ds
    unfold chatProcessStream at h
    rw [h]
    simp [chatProcessChunk, String.empty_append]
  · unfold sendMessageRequest
    simp
  · have h := chatProcessStream_delta_chunks (sendMessageRequest msgs input)
      ⟨"assistant", ""⟩ ["Hel", "lo", " world"]
    unfold chatProcessStream at h
    unfold chatProcessStream afterSendDisplay
    simp only [List.map_cons, List.map_nil] at h
    have hsplit : ([[ChatData.delta "Hel"], [ChatData.delta "lo"],
        [ChatData.delta " world"], [ChatData.doneSentinel]] :
          List (List ChatData)) =
        [[ChatData.delta "Hel"], [ChatData.delta "lo"],
         [ChatData.delta " world"]] ++ [[ChatData.doneSentinel]] := rfl
    rw [hsplit, List.foldl_append, h]
    simp [chatProcessChunk, joinDeltas]

/-- The fixed error text ChatPage writes into the last message on a
non-abort streaming failure. -/
def chatErrorText : String := "Error: Failed to get response. Please try again."

/-- `updated[updated.length - 1].content = ...` from ChatPage's catch block:
replace (not append to) the content of the last message. -/
def setLastContent : List ChatMessage → String → List ChatMessage
  | [], _ => []
  | [m], c => [⟨m.role, c⟩]
  | m :: m2 :: ms, c => m :: setLastContent (m2 :: ms) c

/-- ChatPage `sendMessage` catch block for a non-abort error: the displayed
list keeps its length and the last (placeholder) message's content is set to
the fixed error text. -/
def chatHandleStreamError (msgs : List ChatMessage) : List ChatMessage :=
  setLastContent msgs chatErrorText

/-- The remediation text InferencePage sets when a send fails with an error
message mentioning 503 (handleSendMessage catch block). -/
def inferenceCliFallback : String :=
  "Web-based inference is not available on this ARM64/CPU server. Please use the nanochat CLI: cd /var/www/gpt2/nanochat && source .venv/bin/activate && python -m scripts.chat_cli -i sft"

/-- Contiguous-subsequence test on character lists, used to model
JavaScript's `String.prototype.includes`. -/
def containsSeq (pat : List Char) : List Char → Bool
  | [] => pat.isEmpty
  | c :: rest => List.isPrefixOf pat (c :: rest) || containsSeq pat rest

/-- `err.message && err.message.includes('503')` from InferencePage's catch
block, modelled as a substring test on the underlying character list. -/
def mentions503 (msg : String) : Bool :=
  containsSeq "503".data msg.data

/-- InferencePage `handleSendMessage` catch block for a non-abort error:
the displayed list is reset to `newMessages` (dropping the half-written
assistant placeholder), and the error banner is set to the CLI fallback when
the message mentions 503, to the raw message otherwise (or a generic text
when the message is empty, mirroring `err.message || '...'`). -/
def inferenceHandleStreamError (newMessages : List ChatMessage)
    (errMessage : String) : List ChatMessage × String :=
  (newMessages,
    if mentions503 errMessage then inferenceCliFallback
    else if errMessage = "" then "Failed to generate response" else errMessage)

theorem setLastContent_append (ms : List ChatMessage) (m : ChatMessage)
    (c : String) :
    setLastContent (ms ++ [m]) c = ms ++ [⟨m.role, c⟩] := by
  induction ms with
  | nil => rfl
  | cons a t ih =>
    cases t with
    | nil => simp [setLastContent]
    | cons b t2 => simpa [setLastContent] using ih

/-- Claim C2, counterexample: on a chat-page mid-stream failure the
half-written assistant placeholder is NOT removed from the displayed list —
it stays in place with its content overwritten by the fixed error text.
Concretely, from display list [user "Hi", assistant "Hel"] the handler
produces a two-element list, not the one-element list the claim requires. -/
theorem chat_error_keeps_placeholder_counterexample :
    chatHandleStreamError [⟨"user", "Hi"⟩, ⟨"assistant", "Hel"⟩] =
      [⟨"user", "Hi"⟩, ⟨"assistant", chatErrorText⟩] ∧
    chatHandleStreamError [⟨"user", "Hi"⟩, ⟨"assistant", "Hel"⟩] ≠
      [⟨"user", "Hi"⟩] := by
  constructor
  · rfl
  · decide

/-- Claim C2 as amended: on a non-abort mid-stream failure the inference
page removes the half-written assistant placeholder (the displayed list is
reset to the user-turn list), while the chat page keeps the placeholder in
the list and replaces its half-written content with a fixed error text. -/
theorem stream_error_placeholder_handling
    (newMessages ms : List ChatMessage) (errMessage half : String) :
    (inferenceHandleStreamError newMessages errMessage).1 = newMessages ∧
    chatHandleStreamError (ms ++ [⟨"assistant", half⟩]) =
      ms ++ [⟨"assistant", chatErrorText⟩] := by
  exact ⟨rfl, setLastContent_append ms ⟨"assistant", half⟩ chatErrorText⟩

/-- A discovered model as returned by the discovery endpoint and consumed by
InferencePage `loadModels`: training-stage type, training step, checkpoint
path. -/
structure DModel where
  type : String
  step : Nat
  path : String
deriving Repr, DecidableEq

/-- The InferencePage state the render reads: loading flag, error banner
text, discovered models, selected model path. -/
structure InferenceViewState where
  loading : Bool
  error : String
  models : List DModel
  selectedModel : String
deriving Repr

/-- The rendered input area of InferencePage: the `disabled` props of the
textarea and of the send button, the textarea placeholder, and the CLI
fallback command shown in the always-rendered notice above the input. -/
structure InputArea where
  textareaDisabled : Bool
  sendDisabled : Bool
  placeholder : String
  cliCommand : String
deriving Repr, DecidableEq

/-- The command-line fallback shown in InferencePage's static notices. -/
def inferenceCliCommand : String :=
  "cd /var/www/gpt2/nanochat && source .venv/bin/activate && python -m scripts.chat_cli -i sft"

/-- The input area as InferencePage renders it: the JSX hardcodes
`disabled={true}` on both the textarea and the send button and always shows
the CLI fallback notice, independent of any state. -/
def renderInputArea (_s : InferenceViewState) : InputArea :=
  { textareaDisabled := true
    sendDisabled := true
    placeholder := "Web chat is disabled on this server - use CLI (see above)"
    cliCommand := inferenceCliCommand }

/-- A state describing a capable host: models were discovered, one is
selected, no error occurred, loading is over. -/
def capableHostState : InferenceViewState :=
  { loading := false
    error := ""
    models := [⟨"sft", 800, "/ckpt/chatsft_checkpoints/d20/model_000800.pt"⟩]
    selectedModel := "/ckpt/chatsft_checkpoints/d20/model_000800.pt" }

/-- Claim C3, counterexample: the claimed dichotomy requires enabled input
controls on a capable host, but the render hardcodes both controls disabled
even in a fully capable state (models discovered and selected, no error). -/
theorem inference_input_disabled_on_capable_host :
    (renderInputArea capableHostState).textareaDisabled = true ∧
    (renderInputArea capableHostState).sendDisabled = true := ⟨rfl, rfl⟩

/-- Claim C3 as amended: the inference page unconditionally disables the
input controls and always displays the command-line fallback notice,
regardless of host capability; when a send attempt fails with an error
mentioning 503, the error banner is additionally set to the unsupported
explanation carrying the suggested CLI fallback. -/
theorem inference_page_always_disabled (s : InferenceViewState)
    (newMessages : List ChatMessage) :
    (renderInputArea s).textareaDisabled = true ∧
    (renderInputArea s).sendDisabled = true ∧
    (renderInputArea s).cliCommand = inferenceCliCommand ∧
    (inferenceHandleStreamError newMessages "HTTP error! status: 503").2 =
      inferenceCliFallback := by
  refine ⟨rfl, rfl, rfl, ?_⟩
  have h503 : mentions503 "HTTP error! status: 503" = true := by decide
  simp [inferenceHandleStreamError, h503]

/-- `(prev, current) => (current.step > prev.step) ? current : prev`,
the reduce callback of InferencePage `loadModels`. -/
def pickLatest (prev current : DModel) : DModel :=
  if current.step > prev.step then current else prev

/-- InferencePage `loadModels` selection logic: on a non-empty model list,
filter sft models; if any exist, reduce with `pickLatest` (JS `reduce`
without seed: first element seeds, rest folds) and select its path;
otherwise select the first model's path. Empty list selects nothing. -/
def loadModelsSelect (models : List DModel) : Option String :=
  match models with
  | [] => none
  | m0 :: _ =>
    match models.filter (fun m => m.type == "sft") with
    | [] => some m0.path
    | s0 :: rest => some ((rest.foldl pickLatest s0).path)

theorem foldl_pickLatest_spec (l : List DModel) (a : DModel) :
    (l.foldl pickLatest a = a ∨ l.foldl pickLatest a ∈ l) ∧
    a.step ≤ (l.foldl pickLatest a).step ∧
    ∀ x ∈ l, x.step ≤ (l.foldl pickLatest a).step := by
  induction l generalizing a with
  | nil => simp
  | cons b t ih =>
    simp only [List.foldl_cons, pickLatest]
    by_cases hb : b.step < a.step
    · rw [if_neg (by omega)]
      obtain ⟨h1, h2, h3⟩ := ih a
      refine ⟨?_, h2, ?_⟩
      · rcases h1 with h | h
        · exact Or.inl h
        · exact Or.inr (List.mem_cons_of_mem b h)
      · intro x hx
        rcases List.mem_cons.mp hx with h | h
        · subst h; omega
        · exact h3 x h
    · by_cases heq : b.step = a.step
      · rw [if_neg (by omega)]
        obtain ⟨h1, h2, h3⟩ := ih a
        refine ⟨?_, h2, ?_⟩
        · rcases h1 with h | h
          · exact Or.inl h
          · exact Or.inr (List.mem_cons_of_mem b h)
        · intro x hx
          rcases List.mem_cons.mp hx with h | h
          · subst h; omega
          · exact h3 x h
      · rw [if_pos (by omega)]
        obtain ⟨h1, h2, h3⟩ := ih b
        refine ⟨?_, by omega, ?_⟩
        · rcases h1 with h | h
          · right; rw [h]; exact List.mem_cons_self b t
          · exact Or.inr (List.mem_cons_of_mem b h)
        · intro x hx
          rcases List.mem_cons.mp hx with h | h
          · subst h; exact h2
          · exact h3 x h

/-- Claim C4: for every non-empty discovered model list, the initially
selected model is an sft-stage model of maximal step among the sft models
when at least one exists, and otherwise the first model of the list. -/
theorem inference_default_model_selection (m0 : DModel) (tail : List DModel) :
    ((m0 :: tail).filter (fun m => m.type == "sft") = [] →
      loadModelsSelect (m0 :: tail) = some m0.path) ∧
    (∀ s0 rest, (m0 :: tail).filter (fun m => m.type == "sft") = s0 :: rest →
      ∃ m, m ∈ s0 :: rest ∧ loadModelsSelect (m0 :: tail) = some m.path ∧
        ∀ m2 ∈ s0 :: rest, m2.step ≤ m.step) := by
  constructor
  · intro hf
    simp only [loadModelsSelect, hf]
  · intro s0 rest hf
    obtain ⟨h1, h2, h3⟩ := foldl_pickLatest_spec rest s0
    refine ⟨rest.foldl pickLatest s0, ?_, ?_, ?_⟩
    · rcases h1 with h | h
      · rw [h]; exact List.mem_cons_self s0 rest
      · exact List.mem_cons_of_mem s0 h
    · simp only [loadModelsSelect, hf]
    · intro m2 hm2
      rcases List.mem_cons.mp hm2 with h | h
      · subst h; exact h2
      · exact h3 m2 h

/-- Witness for C4 at concrete model lists: among [base 100, sft 650,
sft 800] the selection picks the path of the sft model with step 800, and
with no sft model present the first model's path is picked. -/
theorem inference_default_model_selection_witness :
    loadModelsSelect [⟨"base", 100, "p1"⟩, ⟨"sft", 650, "p2"⟩,
      ⟨"sft", 800, "p3"⟩] = some "p3" ∧
    loadModelsSelect [⟨"base", 100, "p1"⟩, ⟨"mid", 200, "p2"⟩] =
      some "p1" := by
  constructor
  · obtain ⟨m, hm, hsel, hmax⟩ :=
      (inference_default_model_selection ⟨"base", 100, "p1"⟩
        [⟨"sft", 650, "p2"⟩, ⟨"sft", 800, "p3"⟩]).2
        ⟨"sft", 650, "p2"⟩ [⟨"sft", 800, "p3"⟩] (by decide)
    have h800 := hmax ⟨"sft", 800, "p3"⟩ (by simp)
    have hm2 : m = ⟨"sft", 650, "p2"⟩ ∨ m = ⟨"sft", 800, "p3"⟩ := by
      simpa using hm
    rcases hm2 with h | h
    · rw [h] at h800; simp at h800
    · rw [h] at hsel; simpa using hsel
  · exact (inference_default_model_selection ⟨"base", 100, "p1"⟩
      [⟨"mid", 200, "p2"⟩]).1 (by decide)

/-- A tracked evaluation task as EvalPage stores it in `runningTasks` and as
the status endpoint returns it. Only the fields the polling logic reads are
modelled. -/
structure EvalTask where
  taskId : String
  status : String
deriving Repr, DecidableEq

/-- The EvalPage state touched by one poll tick: the locally tracked
running-task list, whether the interval is still armed, and whether
`loadResults` was triggered by this tick. -/
structure EvalPollState where
  running : List EvalTask
  polling : Bool
  resultsRefreshed : Bool
deriving Repr, DecidableEq

/-- The outcome of one poll of the task-status endpoint: a task object, or a
request error landing in the catch block. -/
inductive PollOutcome where
  | ok (task : EvalTask)
  | requestError
deriving Repr, DecidableEq

/-- The polling interval of EvalPage `pollTaskStatus` in milliseconds
(`setInterval(..., 2000)`). -/
def pollIntervalMs : Nat := 2000

/-- One tick of EvalPage `pollTaskStatus` for `taskId`: on a successful
poll, the tracked entry is replaced by the fresh task object; if the fresh
status is completed or failed, the interval is cleared, the task is removed
from the running list, and the results list is reloaded. On a request
error the interval is cleared and nothing else happens. -/
def pollStep (taskId : String) (s : EvalPollState) (r : PollOutcome) :
    EvalPollState :=
  match r with
  | PollOutcome.ok task =>
    let running1 := s.running.map (fun t => if t.taskId == taskId then task else t)
    if task.status == "completed" || task.status == "failed" then
      { running := running1.filter (fun t => t.taskId != taskId)
        polling := false
        resultsRefreshed := true }
    else
      { s with running := running1 }
  | PollOutcome.requestError => { s with polling := false }

/-- Claim C5, counterexample: when a poll errors, polling stops but the task
is NOT removed from the locally tracked running-task list and the results
list is NOT refreshed, contradicting the claim's "at which point the task is
removed ... and the results list is refreshed". -/
theorem poll_error_keeps_task_counterexample :
    (pollStep "t1" ⟨[⟨"t1", "running"⟩], true, false⟩
        PollOutcome.requestError).polling = false ∧
    (pollStep "t1" ⟨[⟨"t1", "running"⟩], true, false⟩
        PollOutcome.requestError).running = [⟨"t1", "running"⟩] ∧
    (pollStep "t1" ⟨[⟨"t1", "running"⟩], true, false⟩
        PollOutcome.requestError).resultsRefreshed = false := by
  refine ⟨rfl, rfl, rfl⟩

/-- Claim C5 as amended: the evaluation page polls the status endpoint every
2000 ms; polling for a task stops exactly when a poll reports completed or
failed or the poll request errors; on completed/failed the task is removed
from the tracked running-task list and the results list is refreshed; on a
poll error polling stops with the running-task list and results untouched;
on any other reported status polling continues. -/
theorem eval_polling_behaviour (taskId : String) (s : EvalPollState)
    (task : EvalTask) (hpoll : s.polling = true) :
    pollIntervalMs = 2000 ∧
    ((task.status = "completed" ∨ task.status = "failed") →
      (pollStep taskId s (PollOutcome.ok task)).polling = false ∧
      (∀ t ∈ (pollStep taskId s (PollOutcome.ok task)).running,
        t.taskId ≠ taskId) ∧
      (pollStep taskId s (PollOutcome.ok task)).resultsRefreshed = true) ∧
    ((task.status ≠ "completed" ∧ task.status ≠ "failed") →
      (pollStep taskId s (PollOutcome.ok task)).polling = true) ∧
    ((pollStep taskId s PollOutcome.requestError).polling = false ∧
      (pollStep taskId s PollOutcome.requestError).running = s.running ∧
      (pollStep taskId s PollOutcome.requestError).resultsRefreshed =
        s.resultsRefreshed) := by
  refine ⟨rfl, ?_, ?_, rfl, rfl, rfl⟩
  · intro hdone
    have hcond : (task.status == "completed" || task.status == "failed") = true := by
      rcases hdone with h | h <;> simp [h]
    refine ⟨?_, ?_, ?_⟩
    · simp [pollStep, hcond]
    · intro t ht
      simp only [pollStep, hcond, if_pos] at ht
      simp only [List.mem_filter] at ht
      simpa using ht.2
    · simp [pollStep, hcond]
  · intro ⟨h1, h2⟩
    have hcond : (task.status == "completed" || task.status == "failed") = false := by
      simp [h1, h2]
    simp [pollStep, hcond, hpoll]

/-- Witness for C5 at concrete inputs: a completed poll stops polling,
leaves no tracked entry for the task, and refreshes the results; an error
poll stops polling. -/
theorem eval_polling_behaviour_witness :
    (pollStep "t1" ⟨[⟨"t1", "running"⟩], true, false⟩
        (PollOutcome.ok ⟨"t1", "completed"⟩)).polling = false ∧
    (pollStep "t1" ⟨[⟨"t1", "running"⟩], true, false⟩
        (PollOutcome.ok ⟨"t1", "completed"⟩)).resultsRefreshed = true ∧
    (pollStep "t1" ⟨[⟨"t1", "running"⟩], true, false⟩
        PollOutcome.requestError).polling = false := by
  have h := eval_polling_behaviour "t1" ⟨[⟨"t1", "running"⟩], true, false⟩
    ⟨"t1", "completed"⟩ rfl
  obtain ⟨-, h2, -, h4, -, -⟩ := h
  obtain ⟨hp, -, hr⟩ := h2 (Or.inl rfl)
  exact ⟨hp, hr, h4⟩

/-- The authentication state held by AuthContext together with its two
client-side side-channels: the value stored under localStorage key 'token'
and the axios default Authorization header. `user` is the current user
record (modelled by an opaque string id). -/
structure AuthState where
  storedToken : Option String
  axiosAuthHeader : Option String
  user : Option String
deriving Repr, DecidableEq

/-- `login` from AuthContext: persist the token under key 'token', set the
axios default header to `Bearer <token>`, set the current user. -/
def authLogin (_s : AuthState) (accessToken userData : String) : AuthState :=
  { storedToken := some accessToken
    axiosAuthHeader := some ("Bearer " ++ accessToken)
    user := some userData }

/-- `register` from AuthContext: same persistence as `login`. -/
def authRegister (_s : AuthState) (accessToken userData : String) : AuthState :=
  { storedToken := some accessToken
    axiosAuthHeader := some ("Bearer " ++ accessToken)
    user := some userData }

/-- `logout` from AuthContext: remove the stored token, delete the axios
default header, clear the user. -/
def authLogout (_s : AuthState) : AuthState :=
  { storedToken := none, axiosAuthHeader := none, user := none }

/-- The mount effect of AuthProvider: read localStorage key 'token'; when a
token is present, set the axios default header from it (the user record is
then fetched asynchronously); when absent, leave everything empty. -/
def authRehydrate (stored : Option String) : AuthState :=
  match stored with
  | some t => { storedToken := some t
                axiosAuthHeader := some ("Bearer " ++ t)
                user := none }
  | none => { storedToken := none, axiosAuthHeader := none, user := none }

/-- The headers an axios request carries: axios attaches the default
Authorization header, when set, to every request it sends. -/
def axiosRequestHeaders (s : AuthState) : List (String × String) :=
  match s.axiosAuthHeader with
  | some h => [("Authorization", h)]
  | none => []

/-- The headers of ChatPage's streamed fetch request (`sendMessage`): the
Authorization header is rebuilt by hand from localStorage (a missing token
interpolates as the text "null", mirroring the template literal). -/
def chatFetchHeaders (stored : Option String) : List (String × String) :=
  [("Content-Type", "application/json"),
   ("Authorization", "Bearer " ++ (match stored with
     | some t => t
     | none => "null"))]

/-- The headers of InferencePage's streamed fetch request
(`handleSendMessage`): only Content-Type — no Authorization header is
attached. -/
def inferenceFetchHeaders : List (String × String) :=
  [("Content-Type", "application/json")]

/-- Claim C6, counterexample: after a successful login the token is stored
and set as axios default, yet the inference page's streamed chat request —
a subsequent outgoing request — carries no Authorization header at all, so
the token is not attached to every subsequent outgoing request. -/
theorem inference_request_lacks_auth_header_counterexample :
    (authLogin ⟨none, none, none⟩ "tok123" "alice").storedToken =
      some "tok123" ∧
    (authLogin ⟨none, none, none⟩ "tok123" "alice").axiosAuthHeader =
      some "Bearer tok123" ∧
    List.lookup "Authorization" inferenceFetchHeaders = none := by
  refine ⟨rfl, rfl, rfl⟩

/-- Claim C6 as amended: after every successful login or registration the
access token is persisted under localStorage key 'token' and set as the
axios default `Authorization: Bearer <token>` header, so every axios request
carries it; the chat page's raw fetch request attaches it explicitly from
storage; the inference page's raw fetch request carries no Authorization
header. On page load the context re-hydrates the header from the stored
token; logout removes the stored token, the default header, and the user. -/
theorem auth_token_lifecycle (s : AuthState) (t u : String) :
    (authLogin s t u).storedToken = some t ∧
    (authLogin s t u).user = some u ∧
    axiosRequestHeaders (authLogin s t u) =
      [("Authorization", "Bearer " ++ t)] ∧
    (authRegister s t u).storedToken = some t ∧
    (authRegister s t u).user = some u ∧
    axiosRequestHeaders (authRegister s t u) =
      [("Authorization", "Bearer " ++ t)] ∧
    chatFetchHeaders (some t) =
      [("Content-Type", "application/json"),
       ("Authorization", "Bearer " ++ t)] ∧
    List.lookup "Authorization" inferenceFetchHeaders = none ∧
    (authRehydrate (some t)).axiosAuthHeader = some ("Bearer " ++ t) ∧
    (authRehydrate (some t)).storedToken = some t ∧
    (authRehydrate none).axiosAuthHeader = none ∧
    (authLogout (authLogin s t u)).storedToken = none ∧
    (authLogout (authLogin s t u)).axiosAuthHeader = none ∧
    (authLogout (authLogin s t u)).user = none := by
  refine ⟨rfl, rfl, rfl, rfl, rfl, rfl, rfl, rfl, rfl, rfl, rfl, rfl, rfl, rfl⟩

/-- The route targets of the application router (App component). -/
inductive RouteName where
  | root
  | login
  | register
  | dashboard
  | notebook
  | chat
  | eval
deriving Repr, DecidableEq

/-- What a route render produces: a navigation redirect or the page
content (named by its component). -/
inductive Rendered where
  | redirect (target : String)
  | page (name : String)
deriving Repr, DecidableEq

/-- `PrivateRoute` from the App component: render the child when a user is
present, else redirect to /login. -/
def privateRoute (user : Option String) (child : Rendered) : Rendered :=
  match user with
  | some _ => child
  | none => Rendered.redirect "/login"

/-- `PublicRoute` from the App component: redirect to /dashboard when a user
is present, else render the child. -/
def publicRoute (user : Option String) (child : Rendered) : Rendered :=
  match user with
  | some _ => Rendered.redirect "/dashboard"
  | none => child

/-- The route table of the App component: which wrapper guards which page. -/
def renderRoute (user : Option String) : RouteName → Rendered
  | RouteName.root => Rendered.redirect "/dashboard"
  | RouteName.login => publicRoute user (Rendered.page "Login")
  | RouteName.register => publicRoute user (Rendered.page "Register")
  | RouteName.dashboard => privateRoute user (Rendered.page "Dashboard")
  | RouteName.notebook => privateRoute user (Rendered.page "NotebookPage")
  | RouteName.chat => privateRoute user (Rendered.page "ChatPage")
  | RouteName.eval => privateRoute user (Rendered.page "EvalPage")

/-- Claim C7: with no authenticated user every protected route (dashboard,
notebook, chat, eval) renders a redirect to the login page, and with an
authenticated user the login and register routes render a redirect to the
dashboard. -/
theorem route_guard_redirects (u : String) :
    renderRoute none RouteName.dashboard = Rendered.redirect "/login" ∧
    renderRoute none RouteName.notebook = Rendered.redirect "/login" ∧
    renderRoute none RouteName.chat = Rendered.redirect "/login" ∧
    renderRoute none RouteName.eval = Rendered.redirect "/login" ∧
    renderRoute (some u) RouteName.login = Rendered.redirect "/dashboard" ∧
    renderRoute (some u) RouteName.register = Rendered.redirect "/dashboard" := by
  refine ⟨rfl, rfl, rfl, rfl, rfl, rfl⟩

/-- A notebook cell as the notebook editor stores it: type, source content,
captured output, execution count. -/
structure NbCell where
  type : String
  content : String
  output : Option String
  execution_count : Option Nat
deriving Repr, DecidableEq

/-- `cells.filter((_, i) => i !== index)` from NotebookPage `deleteCell`,
written with an explicit position counter starting at `n`. -/
def filterIdxNe (index : Nat) : Nat → List NbCell → List NbCell
  | _, [] => []
  | i, c :: cs =>
      if i = index then filterIdxNe index (i + 1) cs
      else c :: filterIdxNe index (i + 1) cs

/-- NotebookPage `deleteCell`: refuse when the list has exactly one cell;
otherwise, only when the interactive prompt is confirmed, drop the cell at
the given position. -/
def deleteCell (cells : List NbCell) (index : Nat) (confirmed : Bool) :
    List NbCell :=
  if cells.length = 1 then cells
  else if confirmed then filterIdxNe index 0 cells
  else cells

theorem filterIdxNe_lt (index : Nat) (l : List NbCell) :
    ∀ n, index < n → filterIdxNe index n l = l := by
  induction l with
  | nil => intro n _; rfl
  | cons c cs ih =>
    intro n hn
    have hne : n ≠ index := by omega
    simp only [filterIdxNe, if_neg hne]
    rw [ih (n + 1) (by omega)]

theorem filterIdxNe_drop (l : List NbCell) :
    ∀ n i, filterIdxNe (n + i) n l = l.take i ++ l.drop (i + 1) := by
  induction l with
  | nil => intro n i; simp [filterIdxNe]
  | cons c cs ih =>
    intro n i
    cases i with
    | zero =>
      simp only [Nat.add_zero, filterIdxNe, if_pos rfl]
      rw [filterIdxNe_lt n cs (n + 1) (by omega)]
      simp
    | succ j =>
      have hne : n ≠ n + (j + 1) := by omega
      simp only [filterIdxNe, if_neg hne]
      have harith : n + (j + 1) = (n + 1) + j := by omega
      rw [harith, ih (n + 1) j]
      simp

/-- Claim C8: deleting a cell is refused (list unchanged) when the list has
exactly one cell; with more than one cell and a confirmed prompt, exactly
the cell at the given index is removed and the remaining cells keep their
relative order (the result is the prefix before the index followed by the
suffix after it); an unconfirmed prompt leaves the list unchanged. -/
theorem notebook_delete_cell (cells : List NbCell) (index : Nat)
    (confirmed : Bool) :
    (cells.length = 1 → deleteCell cells index confirmed = cells) ∧
    (cells.length > 1 →
      deleteCell cells index true = cells.take index ++ cells.drop (index + 1)) ∧
    (deleteCell cells index false = cells) := by
  refine ⟨?_, ?_, ?_⟩
  · intro h
    simp [deleteCell, h]
  · intro h
    have h1 : ¬cells.length = 1 := by omega
    simp only [deleteCell, if_neg h1, if_pos rfl]
    have := filterIdxNe_drop cells 0 index
    simpa using this
  · by_cases h1 : cells.length = 1 <;> simp [deleteCell, h1]

/-- Witness for C8 at concrete cell lists: a single-cell list survives a
delete request untouched, and a confirmed delete at index 1 of a three-cell
list removes exactly the middle cell. -/
theorem notebook_delete_cell_witness :
    deleteCell [⟨"code", "a", none, none⟩] 0 true =
      [⟨"code", "a", none, none⟩] ∧
    deleteCell [⟨"code", "a", none, none⟩, ⟨"code", "b", none, none⟩,
        ⟨"code", "c", none, none⟩] 1 true =
      [⟨"code", "a", none, none⟩, ⟨"code", "c", none, none⟩] := by
  constructor
  · exact (notebook_delete_cell [⟨"code", "a", none, none⟩] 0 true).1 rfl
  · have h := (notebook_delete_cell [⟨"code", "a", none, none⟩,
      ⟨"code", "b", none, none⟩, ⟨"code", "c", none, none⟩] 1 true).2.1
      (by decide)
    simpa using h

/-- `toggleBenchmark` from EvalPage: remove the id when present (via filter),
append it when absent. -/
def toggleBenchmark (benchmarkId : String) (prev : List String) :
    List String :=
  if prev.contains benchmarkId then prev.filter (fun i => i != benchmarkId)
  else prev ++ [benchmarkId]

theorem toggleBenchmark_mem_eq (prev : List String) (benchmarkId : String)
    (h : benchmarkId ∈ prev) :
    toggleBenchmark benchmarkId prev =
      prev.filter (fun i => i != benchmarkId) := by
  simp [toggleBenchmark, h]

theorem toggleBenchmark_not_mem_eq (prev : List String) (benchmarkId : String)
    (h : benchmarkId ∉ prev) :
    toggleBenchmark benchmarkId prev = prev ++ [benchmarkId] := by
  simp [toggleBenchmark, h]

/-- Claim C9: one toggle adds the identifier to the selected-benchmark set
when absent and removes it when present, and toggling the same identifier
twice restores the selected-benchmark set (membership is restored for every
identifier; the toggle is an involution on the set of selected ids). -/
theorem toggle_benchmark_involution (prev : List String)
    (benchmarkId : String) :
    (benchmarkId ∈ prev → benchmarkId ∉ toggleBenchmark benchmarkId prev) ∧
    (benchmarkId ∉ prev → benchmarkId ∈ toggleBenchmark benchmarkId prev) ∧
    (∀ x, x ∈ toggleBenchmark benchmarkId (toggleBenchmark benchmarkId prev)
      ↔ x ∈ prev) := by
  by_cases h : benchmarkId ∈ prev
  · refine ⟨fun _ => ?_, fun hn => absurd h hn, fun x => ?_⟩
    · rw [toggleBenchmark_mem_eq prev benchmarkId h]
      simp [List.mem_filter]
    · have hno : benchmarkId ∉ prev.filter (fun i => i != benchmarkId) := by
        simp [List.mem_filter]
      rw [toggleBenchmark_mem_eq prev benchmarkId h,
        toggleBenchmark_not_mem_eq _ _ hno]
      simp only [List.mem_append, List.mem_filter, List.mem_singleton,
        bne_iff_ne, ne_eq, decide_not, Bool.not_eq_eq_eq_not, Bool.not_true,
        decide_eq_false_iff_not]
      constructor
      · rintro (⟨hx, _⟩ | hx)
        · exact hx
        · exact hx ▸ h
      · intro hx
        by_cases hxb : x = benchmarkId
        · exact Or.inr hxb
        · exact Or.inl ⟨hx, hxb⟩
  · refine ⟨fun hin => absurd hin h, fun _ => ?_, fun x => ?_⟩
    · rw [toggleBenchmark_not_mem_eq prev benchmarkId h]
      simp
    · have hin : benchmarkId ∈ prev ++ [benchmarkId] := by simp
      rw [toggleBenchmark_not_mem_eq prev benchmarkId h,
        toggleBenchmark_mem_eq _ _ hin]
      simp only [List.filter_append, List.mem_append, List.mem_filter,
        bne_iff_ne, ne_eq, decide_not, Bool.not_eq_eq_eq_not, Bool.not_true,
        decide_eq_false_iff_not]
      constructor
      · rintro (⟨hx, _⟩ | hx)
        · exact hx
        · simp at hx
      · intro hx
        exact Or.inl ⟨hx, fun he => h (he ▸ hx)⟩

/-- Witness for C9 at concrete selections: toggling "mmlu" out of ["mmlu"]
removes it, toggling "gsm8k" into ["mmlu"] adds it, and a double toggle of
"mmlu" on ["mmlu", "arc"] restores membership of "mmlu" and of "arc". -/
theorem toggle_benchmark_involution_witness :
    "mmlu" ∉ toggleBenchmark "mmlu" ["mmlu"] ∧
    "gsm8k" ∈ toggleBenchmark "gsm8k" ["mmlu"] ∧
    ("mmlu" ∈ toggleBenchmark "mmlu" (toggleBenchmark "mmlu" ["mmlu", "arc"])
      ↔ "mmlu" ∈ ["mmlu", "arc"]) ∧
    ("arc" ∈ toggleBenchmark "mmlu" (toggleBenchmark "mmlu" ["mmlu", "arc"])
      ↔ "arc" ∈ ["mmlu", "arc"]) :=
  ⟨(toggle_benchmark_involution ["mmlu"] "mmlu").1 (by decide),
   (toggle_benchmark_involution ["mmlu"] "gsm8k").2.1 (by decide),
   (toggle_benchmark_involution ["mmlu", "arc"] "mmlu").2.2 "mmlu",
   (toggle_benchmark_involution ["mmlu", "arc"] "mmlu").2.2 "arc"⟩

/-- The notebook editor state touched by the file-import flow: the current
cell list and whether the open-file modal is shown. -/
structure NotebookState where
  cells : List NbCell
  showOpenModal : Bool
deriving Repr, DecidableEq

/-- The outcome of fetching and parsing an importable notebook file in
NotebookPage `loadIpynbFile`: the parsed cell list, or a fetch/parse
error landing in the catch block. -/
inductive IpynbLoadResult where
  | ok (cells : List NbCell)
  | fetchError
deriving Repr, DecidableEq

/-- NotebookPage `loadIpynbFile` after the file has been fetched and its
cells mapped: only when the user confirms the prompt are the current cells
replaced and the modal closed; declining, or a fetch error, changes
nothing. -/
def loadIpynbFile (s : NotebookState) (result : IpynbLoadResult)
    (confirmed : Bool) : NotebookState :=
  match result with
  | IpynbLoadResult.ok loadedCells =>
      if confirmed then { cells := loadedCells, showOpenModal := false }
      else s
  | IpynbLoadResult.fetchError => s

/-- Claim C10: when the user declines the confirmation prompt after a
successfully fetched and parsed notebook file, the current cell list is left
completely unchanged and the open-file modal is not closed by that path. -/
theorem ipynb_decline_leaves_state_unchanged (s : NotebookState)
    (loadedCells : List NbCell) :
    (loadIpynbFile s (IpynbLoadResult.ok loadedCells) false).cells = s.cells ∧
    (loadIpynbFile s (IpynbLoadResult.ok loadedCells) false).showOpenModal =
      s.showOpenModal ∧
    loadIpynbFile s (IpynbLoadResult.ok loadedCells) false = s := by
  refine ⟨rfl, rfl, rfl⟩
